import Mathlib

/-!
Shallow embedding of the technitium-companion reconciliation core.

The embedding translates, from the repository's Go source:
  * `internal/technitium/client.go` — `Record`, `RData`, `GetRecords`,
    `AddARecord`, `DeleteARecord`, `HasARecord`, `EnsureARecord`;
  * `internal/config` — `Config.MatchesFilters` (compiled regular
    expressions are abstracted as boolean predicates `String → Bool`,
    i.e. the `MatchString` method of a compiled pattern);
  * `internal/reconciler` — `ReconcileResult`, `Reconciler.Reconcile`,
    `processWorkload`, `ensureRecord`, `ReconcileHostnames`,
    `DeleteHostnames`;
  * `internal/watcher/watcher.go` — the debounce state of `Watch`
    (`pendingReconcile`, the `time.AfterFunc` timer) and the event
    handlers `handleServiceEvent` / `handleContainerEvent`.

The external Technitium DNS server is modelled as a `DNS` state: a list
of stored records keyed by zone and domain, plus failure-injection sets
naming the (zone, domain) pairs for which each HTTP endpoint fails.
Every client operation returns its result together with the new server
state and the list of network calls it issued, so that frame properties
("no create/delete call is issued") are statements about the call trace.
Logging, metrics and durations are elided: they do not affect control
flow or any returned value.
-/

namespace TechComp

/-- `RData` from `internal/technitium/client.go`: record-specific data. -/
structure RData where
  ipAddress : String
  value : String
  deriving Repr, DecidableEq

/-- `Record` from `internal/technitium/client.go` (Go field `Type` is
spelled `type` here). -/
structure Record where
  name : String
  type : String
  ttl : Nat
  rData : RData
  disabled : Bool
  deriving Repr, DecidableEq

/-- A network call issued by the Technitium client against the DNS
server: the three endpoints `records/get`, `records/add`,
`records/delete` used by the companion. -/
inductive Call where
  | getRecords (zone host : String)
  | addRecord (zone host ip : String) (ttl : Nat)
  | deleteRecord (zone host ip : String)
  deriving Repr, DecidableEq

/-- `true` exactly on delete calls. -/
def Call.isDelete : Call → Bool
  | Call.deleteRecord _ _ _ => true
  | _ => false

/-- `true` exactly on mutating calls (create or delete). -/
def Call.isMutation : Call → Bool
  | Call.addRecord _ _ _ _ => true
  | Call.deleteRecord _ _ _ => true
  | _ => false

/-- `true` exactly on create calls. -/
def Call.isCreate : Call → Bool
  | Call.addRecord _ _ _ _ => true
  | _ => false

/-- Model of the external Technitium DNS server: the stored records,
keyed by (zone, domain), plus failure injection — the (zone, domain)
pairs for which the get / add / delete endpoint fails (network error,
non-200 status or API-level error, all of which the Go client folds
into a single returned `error`). -/
structure DNS where
  records : List (String × String × Record)
  failGet : List (String × String)
  failAdd : List (String × String)
  failDelete : List (String × String)
  deriving Repr, DecidableEq

/-- The records the server stores for (zone, domain) — what the
`records/get` endpoint returns on success. -/
def DNS.recordsFor (d : DNS) (zone host : String) : List Record :=
  (d.records.filter (fun e => e.1 == zone && e.2.1 == host)).map (fun e => e.2.2)

/-- The record the server stores when the `records/add` endpoint is
called with type `A`, the given address and TTL. -/
def storedARecord (host ip : String) (ttl : Nat) : Record :=
  { name := host, type := "A", ttl := ttl,
    rData := { ipAddress := ip, value := "" }, disabled := false }

/-- `Client.GetRecords` (client.go:200): retrieves all records for a
hostname in a zone; any transport or API failure surfaces as an error. -/
def GetRecords (d : DNS) (zone host : String) :
    Except String (List Record) × DNS × List Call :=
  if d.failGet.contains (zone, host) then
    (Except.error ("getting records for " ++ host), d, [Call.getRecords zone host])
  else
    (Except.ok (d.recordsFor zone host), d, [Call.getRecords zone host])

/-- `Client.AddARecord` (client.go:154): creates an A record in the
zone via `records/add`. -/
def AddARecord (d : DNS) (zone host ip : String) (ttl : Nat) :
    Except String Unit × DNS × List Call :=
  if d.failAdd.contains (zone, host) then
    (Except.error ("adding A record for " ++ host), d, [Call.addRecord zone host ip ttl])
  else
    (Except.ok (),
     { d with records := d.records ++ [(zone, host, storedARecord host ip ttl)] },
     [Call.addRecord zone host ip ttl])

/-- `Client.DeleteARecord` (client.go:178): removes the A record with
the given address from the zone via `records/delete`. -/
def DeleteARecord (d : DNS) (zone host ip : String) :
    Except String Unit × DNS × List Call :=
  if d.failDelete.contains (zone, host) then
    (Except.error ("deleting A record for " ++ host), d, [Call.deleteRecord zone host ip])
  else
    (Except.ok (),
     { d with records := d.records.filter (fun e =>
         !(e.1 == zone && e.2.1 == host && e.2.2.type == "A"
             && e.2.2.rData.ipAddress == ip)) },
     [Call.deleteRecord zone host ip])

/-- The loop body of `HasARecord` (client.go:231-235): a returned
record counts when its type is `"A"` and its `rData.ipAddress` equals
the requested address — the `Disabled` flag is not consulted. -/
def recordMatchesA (ip : String) (r : Record) : Bool :=
  r.type == "A" && r.rData.ipAddress == ip

/-- `Client.HasARecord` (client.go:225): fetches the records for
(zone, hostname) and reports whether any is an A record with the exact
address. -/
def HasARecord (d : DNS) (zone host ip : String) :
    Except String Bool × DNS × List Call :=
  match GetRecords d zone host with
  | (Except.error e, d1, t1) => (Except.error e, d1, t1)
  | (Except.ok records, d1, t1) => (Except.ok (records.any (recordMatchesA ip)), d1, t1)

/-- `Client.EnsureARecord` (client.go:242): creates the A record only
if `HasARecord` does not find it; returns `true` when a record was
created and `false` when it already existed. -/
def EnsureARecord (d : DNS) (zone host ip : String) (ttl : Nat) :
    Except String Bool × DNS × List Call :=
  match HasARecord d zone host ip with
  | (Except.error e, d1, t1) => (Except.error e, d1, t1)
  | (Except.ok true, d1, t1) => (Except.ok false, d1, t1)
  | (Except.ok false, d1, t1) =>
    match AddARecord d1 zone host ip ttl with
    | (Except.error e, d2, t2) => (Except.error e, d2, t1 ++ t2)
    | (Except.ok _, d2, t2) => (Except.ok true, d2, t1 ++ t2)

/-- `Config` from `internal/config` restricted to the fields the
reconciliation core reads. A compiled regular expression is abstracted
as its `MatchString` predicate; `none` models a nil pattern pointer. -/
structure Config where
  technitiumZone : String
  targetIP : String
  ttl : Nat
  includePattern : Option (String → Bool)
  excludePattern : Option (String → Bool)
  dryRun : Bool

/-- `Config.MatchesFilters` (config.go:226-238): the hostname must
match the include pattern when one is set, and must not match the
exclude pattern when one is set. -/
def Config.MatchesFilters (c : Config) (hostname : String) : Bool :=
  if (match c.includePattern with
      | some inc => !inc hostname
      | none => false) then
    false
  else if (match c.excludePattern with
      | some exc => exc hostname
      | none => false) then
    false
  else
    true

/-- `docker.Workload` (docker/client.go:245): the unified shape of a
Swarm service or a standalone container. Go field `Type` is spelled
`type`; the label map is a list of key/value pairs. -/
structure Workload where
  id : String
  name : String
  labels : List (String × String)
  type : String

/-- `ReconcileResult` (reconciler.go): the accumulator of one
reconciliation pass. `Duration` is elided (wall-clock time does not
affect any other field). Errors are kept as their formatted messages. -/
structure ReconcileResult where
  workloadsScanned : Nat
  hostnamesFound : Nat
  hostnamesFiltered : Nat
  recordsCreated : Nat
  recordsExisted : Nat
  errors : List String
  deriving Repr, DecidableEq

/-- The zero `ReconcileResult{}` literal a pass starts from. -/
def emptyResult : ReconcileResult :=
  { workloadsScanned := 0, hostnamesFound := 0, hostnamesFiltered := 0,
    recordsCreated := 0, recordsExisted := 0, errors := [] }

/-- `Reconciler` (reconciler.go): configuration plus the Traefik label
parser. The parser (`traefik.Parser.ExtractHosts`) is a pure external
collaborator mapping a label map to a hostname list, so it is carried
as an abstract function; the Docker lister result is passed to
`Reconcile` as an argument. The `sync.Mutex` field guards concurrent
entry and has no sequential content. -/
structure Reconciler where
  cfg : Config
  parser : List (String × String) → List String

/-- `Reconciler.ensureRecord` (reconciler.go:901-957): filter, dry-run
short-circuit, then `EnsureARecord`, updating the pass counters. -/
def Reconciler.ensureRecord (rc : Reconciler) (workloadName hostname : String)
    (result : ReconcileResult) (d : DNS) :
    Except String Unit × ReconcileResult × DNS × List Call :=
  if !rc.cfg.MatchesFilters hostname then
    (Except.ok (), result, d, [])
  else
    let result1 := { result with hostnamesFiltered := result.hostnamesFiltered + 1 }
    if rc.cfg.dryRun then
      (Except.ok (), { result1 with recordsCreated := result1.recordsCreated + 1 }, d, [])
    else
      match EnsureARecord d rc.cfg.technitiumZone hostname rc.cfg.targetIP rc.cfg.ttl with
      | (Except.error e, d1, t1) =>
        (Except.error ("creating A record: " ++ e), result1, d1, t1)
      | (Except.ok created, d1, t1) =>
        if created then
          (Except.ok (), { result1 with recordsCreated := result1.recordsCreated + 1 },
           d1, t1)
        else
          (Except.ok (), { result1 with recordsExisted := result1.recordsExisted + 1 },
           d1, t1)

/-- The `for _, host := range hosts` loop of `processWorkload`
(reconciler.go:891-895): the first `ensureRecord` error aborts the
loop for this workload and is returned wrapped. -/
def ensureHostsLoop (rc : Reconciler) (workloadName : String) (hosts : List String)
    (result : ReconcileResult) (d : DNS) :
    Except String Unit × ReconcileResult × DNS × List Call :=
  match hosts with
  | [] => (Except.ok (), result, d, [])
  | host :: rest =>
    match rc.ensureRecord workloadName host result d with
    | (Except.error e, r1, d1, t1) =>
      (Except.error ("ensuring record for " ++ host ++ ": " ++ e), r1, d1, t1)
    | (Except.ok _, r1, d1, t1) =>
      let next := ensureHostsLoop rc workloadName rest r1 d1
      (next.1, next.2.1, next.2.2.1, t1 ++ next.2.2.2)

/-- `Reconciler.processWorkload` (reconciler.go:873-898): extract
hostnames from labels; zero hosts is success; otherwise count them and
run the ensure loop. -/
def Reconciler.processWorkload (rc : Reconciler) (w : Workload)
    (result : ReconcileResult) (d : DNS) :
    Except String Unit × ReconcileResult × DNS × List Call :=
  let hosts := rc.parser w.labels
  if hosts.length == 0 then
    (Except.ok (), result, d, [])
  else
    ensureHostsLoop rc w.name hosts
      { result with hostnamesFound := result.hostnamesFound + hosts.length } d

/-- The `for _, workload := range workloads` loop of `Reconcile`
(reconciler.go:839-848): a failing workload appends one formatted
error to the result and the loop continues. -/
def reconcileLoop (rc : Reconciler) (ws : List Workload)
    (result : ReconcileResult) (d : DNS) : ReconcileResult × DNS × List Call :=
  match ws with
  | [] => (result, d, [])
  | w :: rest =>
    match rc.processWorkload w result d with
    | (Except.error e, r1, d1, t1) =>
      let next := reconcileLoop rc rest
        { r1 with errors := r1.errors ++ ["workload " ++ w.name ++ ": " ++ e] } d1
      (next.1, next.2.1, t1 ++ next.2.2)
    | (Except.ok _, r1, d1, t1) =>
      let next := reconcileLoop rc rest r1 d1
      (next.1, next.2.1, t1 ++ next.2.2)

/-- `Reconciler.Reconcile` (reconciler.go:815-870): the full pass.
`listResult` is the outcome of the external `docker.ListWorkloads`
call; a listing failure returns immediately with a nil result, while a
successful listing always produces a result. -/
def Reconciler.Reconcile (rc : Reconciler)
    (listResult : Except String (List Workload)) (d : DNS) :
    Except String ReconcileResult × DNS × List Call :=
  match listResult with
  | Except.error e => (Except.error ("listing workloads: " ++ e), d, [])
  | Except.ok workloads =>
    let res := reconcileLoop rc workloads
      { emptyResult with workloadsScanned := workloads.length } d
    (Except.ok res.1, res.2.1, res.2.2)

/-- The `for _, hostname := range hostnames` loop of
`ReconcileHostnames` (reconciler.go:975-983): per-hostname errors are
appended and the loop continues. -/
def reconcileHostnamesLoop (rc : Reconciler) (workloadName : String)
    (hostnames : List String) (result : ReconcileResult) (d : DNS) :
    ReconcileResult × DNS × List Call :=
  match hostnames with
  | [] => (result, d, [])
  | h :: rest =>
    match rc.ensureRecord workloadName h result d with
    | (Except.error e, r1, d1, t1) =>
      let next := reconcileHostnamesLoop rc workloadName rest
        { r1 with errors := r1.errors ++ ["hostname " ++ h ++ ": " ++ e] } d1
      (next.1, next.2.1, t1 ++ next.2.2)
    | (Except.ok _, r1, d1, t1) =>
      let next := reconcileHostnamesLoop rc workloadName rest r1 d1
      (next.1, next.2.1, t1 ++ next.2.2)

/-- `Reconciler.ReconcileHostnames` (reconciler.go:961-987): the
partial pass over a caller-supplied hostname list; the Go function
always returns a nil error. -/
def Reconciler.ReconcileHostnames (rc : Reconciler) (workloadName : String)
    (hostnames : List String) (d : DNS) :
    Except String ReconcileResult × DNS × List Call :=
  let res := reconcileHostnamesLoop rc workloadName hostnames
    { emptyResult with hostnamesFound := hostnames.length } d
  (Except.ok res.1, res.2.1, res.2.2)

/-- The `for _, hostname := range hostnames` loop of `DeleteHostnames`
(reconciler.go:1002-1064): filter, dry-run count, existence check,
then delete; every per-hostname failure is logged and `continue`s. -/
def deleteLoop (rc : Reconciler) (workloadName : String) (hostnames : List String)
    (deleted : Nat) (d : DNS) : Nat × DNS × List Call :=
  match hostnames with
  | [] => (deleted, d, [])
  | h :: rest =>
    if !rc.cfg.MatchesFilters h then
      deleteLoop rc workloadName rest deleted d
    else if rc.cfg.dryRun then
      deleteLoop rc workloadName rest (deleted + 1) d
    else
      match HasARecord d rc.cfg.technitiumZone h rc.cfg.targetIP with
      | (Except.error _, d1, t1) =>
        let next := deleteLoop rc workloadName rest deleted d1
        (next.1, next.2.1, t1 ++ next.2.2)
      | (Except.ok false, d1, t1) =>
        let next := deleteLoop rc workloadName rest deleted d1
        (next.1, next.2.1, t1 ++ next.2.2)
      | (Except.ok true, d1, t1) =>
        match DeleteARecord d1 rc.cfg.technitiumZone h rc.cfg.targetIP with
        | (Except.error _, d2, t2) =>
          let next := deleteLoop rc workloadName rest deleted d2
          (next.1, next.2.1, t1 ++ t2 ++ next.2.2)
        | (Except.ok _, d2, t2) =>
          let next := deleteLoop rc workloadName rest (deleted + 1) d2
          (next.1, next.2.1, t1 ++ t2 ++ next.2.2)

/-- `Reconciler.DeleteHostnames` (reconciler.go:991-1067): removes the
records for the given hostnames; the Go function always returns a nil
error alongside the count. -/
def Reconciler.DeleteHostnames (rc : Reconciler) (workloadName : String)
    (hostnames : List String) (d : DNS) : Except String Nat × DNS × List Call :=
  let res := deleteLoop rc workloadName hostnames 0 d
  (Except.ok res.1, res.2.1, res.2.2)

/-- A Docker lifecycle event as the watcher sees it
(`events.Message`): the event type (`"service"` or `"container"`), the
action string, and the actor name attribute. -/
structure Event where
  type : String
  action : String
  actorName : String

/-- `Watcher.handleServiceEvent` (watcher.go:186-211): pure
classification — it only emits log lines, never a DNS call. The call
list is the list of DNS-gateway calls the handler issues. -/
def handleServiceEvent (e : Event) : List String × List Call :=
  match e.action with
  | "create" => (["service event received"], [])
  | "update" => (["service event received"], [])
  | "remove" => (["service removed", "orphan cleanup disabled - DNS records not removed"], [])
  | _ => ([], [])

/-- `Watcher.handleContainerEvent` (watcher.go:214-237): pure
classification — it only emits log lines, never a DNS call. -/
def handleContainerEvent (e : Event) : List String × List Call :=
  match e.action with
  | "start" => (["container started"], [])
  | "die" => (["container stopped/destroyed", "orphan cleanup disabled - DNS records not removed"], [])
  | "destroy" => (["container stopped/destroyed", "orphan cleanup disabled - DNS records not removed"], [])
  | _ => ([], [])

/-- `Watcher.handleEvent` (watcher.go:166-183): dispatch on the event
type. -/
def handleEvent (e : Event) : List String × List Call :=
  match e.type with
  | "service" => handleServiceEvent e
  | "container" => handleContainerEvent e
  | _ => ([], [])

/-- The debounce state of `Watcher.Watch` (watcher.go:98-141):
`pending` is the Go `pendingReconcile` flag (`true` exactly when the
`time.AfterFunc` timer is armed); `reconcileCount` counts calls into
`Reconciler.Reconcile`; `timerArms` counts `time.AfterFunc`
invocations. -/
structure WatchState where
  pending : Bool
  reconcileCount : Nat
  timerArms : Nat
  deriving Repr, DecidableEq

/-- One input to the watcher loop: either a lifecycle event delivered
on the events channel, or the firing of the armed debounce timer. A
timer firing carries the outcome of the external `ListWorkloads` call
the triggered `Reconcile` will make. -/
inductive WInput where
  | lifecycle (e : Event)
  | timerFire (listResult : Except String (List Workload))

/-- One step of the watcher loop (watcher.go:118-139): on an event,
classify it and arm the timer only when none is pending (the timer is
never reset or extended); on timer firing, run a full `Reconcile` and
clear the pending flag whether the pass succeeded or failed. -/
def watchStep (rc : Reconciler) (s : WatchState) (d : DNS) (i : WInput) :
    WatchState × DNS × List Call :=
  match i with
  | WInput.lifecycle e =>
    if !s.pending then
      ({ s with pending := true, timerArms := s.timerArms + 1 }, d, (handleEvent e).2)
    else
      (s, d, (handleEvent e).2)
  | WInput.timerFire listResult =>
    let res := rc.Reconcile listResult d
    ({ s with pending := false, reconcileCount := s.reconcileCount + 1 },
     res.2.1, res.2.2)

/-- The watcher loop over a finite input sequence, accumulating the
DNS calls issued by every step. -/
def watchRun (rc : Reconciler) (s : WatchState) (d : DNS) :
    List WInput → WatchState × DNS × List Call
  | [] => (s, d, [])
  | i :: rest =>
    let step := watchStep rc s d i
    let next := watchRun rc step.1 step.2.1 rest
    (next.1, next.2.1, step.2.2 ++ next.2.2)

/-! ## Helper lemmas -/

/-- Appending a record for (zone, host) to the store extends exactly
the record list served for (zone, host). -/
theorem recordsFor_append_self (d : DNS) (zone host : String) (r : Record) :
    DNS.recordsFor { d with records := d.records ++ [(zone, host, r)] } zone host
      = d.recordsFor zone host ++ [r] := by
  simp [DNS.recordsFor, List.filter_append]

/-- The record stored by a successful A-record add matches the
existence check for the same address. -/
theorem storedARecord_matches (host ip : String) (ttl : Nat) :
    recordMatchesA ip (storedARecord host ip ttl) = true := by
  simp [recordMatchesA, storedARecord]

/-- In dry-run mode `ensureRecord` performs no network call and leaves
the server untouched; it bumps the filtered and created counters
exactly when the hostname passes the filter. -/
theorem ensureRecord_dryRun_eq (rc : Reconciler) (wn h : String)
    (res : ReconcileResult) (d : DNS) (hdry : rc.cfg.dryRun = true) :
    rc.ensureRecord wn h res d =
      (Except.ok (),
       (if rc.cfg.MatchesFilters h then
          { res with hostnamesFiltered := res.hostnamesFiltered + 1,
                     recordsCreated := res.recordsCreated + 1 }
        else res), d, []) := by
  cases hf : rc.cfg.MatchesFilters h <;> simp [Reconciler.ensureRecord, hf, hdry]

/-- A hostname failing the filter is skipped by `ensureRecord` with no
effect at all. -/
theorem ensureRecord_skip (rc : Reconciler) (wn h : String)
    (res : ReconcileResult) (d : DNS) (hf : rc.cfg.MatchesFilters h = false) :
    rc.ensureRecord wn h res d = (Except.ok (), res, d, []) := by
  simp [Reconciler.ensureRecord, hf]

/-- In dry-run mode the per-workload ensure loop succeeds, leaves the
server untouched and issues no network call. -/
theorem ensureHostsLoop_dryRun (rc : Reconciler) (wn : String) (hosts : List String)
    (res : ReconcileResult) (d : DNS) (hdry : rc.cfg.dryRun = true) :
    (ensureHostsLoop rc wn hosts res d).1 = Except.ok () ∧
    (ensureHostsLoop rc wn hosts res d).2.2.1 = d ∧
    (ensureHostsLoop rc wn hosts res d).2.2.2 = [] := by
  induction hosts generalizing res with
  | nil => simp [ensureHostsLoop]
  | cons h rest ih =>
    rw [ensureHostsLoop, ensureRecord_dryRun_eq rc wn h res d hdry]
    simpa using ih _

/-- In dry-run mode `processWorkload` succeeds, leaves the server
untouched and issues no network call. -/
theorem processWorkload_dryRun (rc : Reconciler) (w : Workload)
    (res : ReconcileResult) (d : DNS) (hdry : rc.cfg.dryRun = true) :
    (rc.processWorkload w res d).1 = Except.ok () ∧
    (rc.processWorkload w res d).2.2.1 = d ∧
    (rc.processWorkload w res d).2.2.2 = [] := by
  cases hz : ((rc.parser w.labels).length == 0) with
  | true => simp [Reconciler.processWorkload, hz]
  | false =>
    simp [Reconciler.processWorkload, hz,
      ensureHostsLoop_dryRun rc w.name _ _ d hdry]

/-- In dry-run mode the full-pass workload loop leaves the server
untouched and issues no network call. -/
theorem reconcileLoop_dryRun (rc : Reconciler) (ws : List Workload)
    (res : ReconcileResult) (d : DNS) (hdry : rc.cfg.dryRun = true) :
    (reconcileLoop rc ws res d).2.1 = d ∧
    (reconcileLoop rc ws res d).2.2 = [] := by
  induction ws generalizing res d with
  | nil => simp [reconcileLoop]
  | cons w rest ih =>
    obtain ⟨h1, h2, h3⟩ := processWorkload_dryRun rc w res d hdry
    rw [reconcileLoop]
    rcases hpw : rc.processWorkload w res d with ⟨e, r1, d1, t1⟩
    rw [hpw] at h1 h2 h3
    simp at h1 h2 h3
    subst h1 h2 h3
    simpa using ih _ _

/-- In dry-run mode the partial-pass hostname loop leaves the server
untouched and issues no network call. -/
theorem reconcileHostnamesLoop_dryRun (rc : Reconciler) (wn : String)
    (hs : List String) (res : ReconcileResult) (d : DNS)
    (hdry : rc.cfg.dryRun = true) :
    (reconcileHostnamesLoop rc wn hs res d).2.1 = d ∧
    (reconcileHostnamesLoop rc wn hs res d).2.2 = [] := by
  induction hs generalizing res with
  | nil => simp [reconcileHostnamesLoop]
  | cons h rest ih =>
    rw [reconcileHostnamesLoop, ensureRecord_dryRun_eq rc wn h res d hdry]
    simpa using ih _

/-- In dry-run mode the delete loop counts exactly the filter-passing
hostnames, checks nothing and deletes nothing. -/
theorem deleteLoop_dryRun (rc : Reconciler) (wn : String) (hs : List String)
    (n : Nat) (d : DNS) (hdry : rc.cfg.dryRun = true) :
    deleteLoop rc wn hs n d
      = (n + hs.countP (fun h => rc.cfg.MatchesFilters h), d, []) := by
  induction hs generalizing n with
  | nil => simp [deleteLoop]
  | cons h rest ih =>
    cases hf : rc.cfg.MatchesFilters h with
    | false =>
      rw [deleteLoop]
      simp [hf, ih, List.countP_cons]
    | true =>
      rw [deleteLoop]
      simp only [hf, hdry, Bool.not_true, Bool.false_eq_true, if_false, if_true]
      rw [ih]
      simp only [List.countP_cons, hf, if_true, Prod.mk.injEq, and_true, true_and]
      omega

/-! ## Claim theorems -/

/-- Claim C2: for every hostname and every pair of optional
include/exclude patterns, `Config.MatchesFilters` returns `true` iff
the hostname matches the include pattern (a missing include pattern
matches every hostname) and does not match the exclude pattern (a
missing exclude pattern excludes nothing); a set exclude pattern that
matches always wins. The function is pure, so it has no side effects. -/
theorem matchesFilters_iff (c : Config) (h : String) :
    c.MatchesFilters h = true ↔
      ((∀ inc, c.includePattern = some inc → inc h = true) ∧
       (∀ exc, c.excludePattern = some exc → exc h = false)) := by
  unfold Config.MatchesFilters
  rcases hi : c.includePattern with _ | inc <;>
    rcases he : c.excludePattern with _ | exc <;>
      simp [hi, he]

/-- Claim C1: the ensure operation first queries existing records for
(zone, hostname) (the trace starts with the get call); when a record
with the exact target address already exists it stops without any
create call and reports "already present"; otherwise it issues exactly
one create and reports "created". Consequently, running it twice in
immediate succession with no external mutation in between yields
"created" exactly on the first call (when the record was absent) and
"already present" on the second, which issues no create. -/
theorem ensureARecord_idempotent (d : DNS) (zone host ip : String) (ttl : Nat)
    (hget : d.failGet.contains (zone, host) = false)
    (hadd : d.failAdd.contains (zone, host) = false) :
    ((d.recordsFor zone host).any (recordMatchesA ip) = false →
       (EnsureARecord d zone host ip ttl).1 = Except.ok true ∧
       (EnsureARecord d zone host ip ttl).2.2.countP Call.isCreate = 1) ∧
    ((d.recordsFor zone host).any (recordMatchesA ip) = true →
       (EnsureARecord d zone host ip ttl).1 = Except.ok false ∧
       (EnsureARecord d zone host ip ttl).2.2.countP Call.isCreate = 0) ∧
    (EnsureARecord (EnsureARecord d zone host ip ttl).2.1 zone host ip ttl).1
      = Except.ok false ∧
    (EnsureARecord (EnsureARecord d zone host ip ttl).2.1 zone host ip ttl).2.2.countP
      Call.isCreate = 0 ∧
    (EnsureARecord d zone host ip ttl).2.2.head? = some (Call.getRecords zone host) := by
  have hget' : (zone, host) ∉ d.failGet := by simpa using hget
  have hadd' : (zone, host) ∉ d.failAdd := by simpa using hadd
  cases hmatch : (d.recordsFor zone host).any (recordMatchesA ip) with
  | true =>
    simp [EnsureARecord, HasARecord, GetRecords, hget', hmatch, List.countP,
      List.countP.go, Call.isCreate]
  | false =>
    have hmatch1 : (DNS.recordsFor
        { d with records := d.records ++ [(zone, host, storedARecord host ip ttl)] }
        zone host).any (recordMatchesA ip) = true := by
      simp [recordsFor_append_self, List.any_append, storedARecord_matches]
    simp [EnsureARecord, HasARecord, GetRecords, AddARecord, hget', hadd', hmatch,
      hmatch1, List.countP, List.countP.go, Call.isCreate]

/-- A DNS server with no stored records and no injected failures. -/
def dnsEmpty : DNS := { records := [], failGet := [], failAdd := [], failDelete := [] }

/-- Witness for claim C1 at a concrete zone, hostname, address and
TTL, starting from an empty zone. -/
theorem ensureARecord_idempotent_witness :
    dnsEmpty.failGet.contains ("home.lab", "app.home.lab") = false ∧
    dnsEmpty.failAdd.contains ("home.lab", "app.home.lab") = false ∧
    (((dnsEmpty.recordsFor "home.lab" "app.home.lab").any (recordMatchesA "10.0.0.1") = false →
        (EnsureARecord dnsEmpty "home.lab" "app.home.lab" "10.0.0.1" 300).1 = Except.ok true ∧
        (EnsureARecord dnsEmpty "home.lab" "app.home.lab" "10.0.0.1" 300).2.2.countP
          Call.isCreate = 1) ∧
     ((dnsEmpty.recordsFor "home.lab" "app.home.lab").any (recordMatchesA "10.0.0.1") = true →
        (EnsureARecord dnsEmpty "home.lab" "app.home.lab" "10.0.0.1" 300).1 = Except.ok false ∧
        (EnsureARecord dnsEmpty "home.lab" "app.home.lab" "10.0.0.1" 300).2.2.countP
          Call.isCreate = 0) ∧
     (EnsureARecord (EnsureARecord dnsEmpty "home.lab" "app.home.lab" "10.0.0.1" 300).2.1
        "home.lab" "app.home.lab" "10.0.0.1" 300).1 = Except.ok false ∧
     (EnsureARecord (EnsureARecord dnsEmpty "home.lab" "app.home.lab" "10.0.0.1" 300).2.1
        "home.lab" "app.home.lab" "10.0.0.1" 300).2.2.countP Call.isCreate = 0 ∧
     (EnsureARecord dnsEmpty "home.lab" "app.home.lab" "10.0.0.1" 300).2.2.head?
        = some (Call.getRecords "home.lab" "app.home.lab")) :=
  ⟨rfl, rfl,
   ensureARecord_idempotent dnsEmpty "home.lab" "app.home.lab" "10.0.0.1" 300 rfl rfl⟩

/-- Claim C9: the existence check counts any stored record of type
`"A"` whose address equals the target, regardless of its `Disabled`
flag; hence when a disabled matching A record exists, `HasARecord`
reports it as present and `EnsureARecord` issues no create, leaves the
zone untouched and reports "already existed". -/
theorem hasARecord_ignores_disabled (d : DNS) (zone host ip : String) (ttl : Nat)
    (r : Record) (hmem : (zone, host, r) ∈ d.records)
    (htype : r.type = "A") (hip : r.rData.ipAddress = ip) (hdis : r.disabled = true)
    (hget : d.failGet.contains (zone, host) = false) :
    (HasARecord d zone host ip).1 = Except.ok true ∧
    (EnsureARecord d zone host ip ttl).1 = Except.ok false ∧
    (EnsureARecord d zone host ip ttl).2.1 = d ∧
    (EnsureARecord d zone host ip ttl).2.2.countP Call.isCreate = 0 := by
  have hget' : (zone, host) ∉ d.failGet := by simpa using hget
  have hfil : (zone, host, r) ∈ d.records.filter (fun e => e.1 == zone && e.2.1 == host) :=
    List.mem_filter.mpr ⟨hmem, by simp⟩
  have hr : r ∈ d.recordsFor zone host := List.mem_map_of_mem _ hfil
  have hany : (d.recordsFor zone host).any (recordMatchesA ip) = true :=
    List.any_eq_true.mpr ⟨r, hr, by simp [recordMatchesA, htype, hip]⟩
  simp [HasARecord, EnsureARecord, GetRecords, hget', hany, List.countP,
    List.countP.go, Call.isCreate]

/-- A store holding exactly one disabled A record for a concrete zone
and hostname. -/
def dnsDisabled : DNS :=
  { records := [("home.lab", "app.home.lab",
      { name := "app.home.lab", type := "A", ttl := 300,
        rData := { ipAddress := "10.0.0.1", value := "" }, disabled := true })],
    failGet := [], failAdd := [], failDelete := [] }

/-- Witness for claim C9: a concrete disabled A record suppresses the
create. -/
theorem hasARecord_ignores_disabled_witness :
    (("home.lab", "app.home.lab",
        ({ name := "app.home.lab", type := "A", ttl := 300,
           rData := { ipAddress := "10.0.0.1", value := "" },
           disabled := true } : Record)) ∈ dnsDisabled.records) ∧
    dnsDisabled.failGet.contains ("home.lab", "app.home.lab") = false ∧
    ((HasARecord dnsDisabled "home.lab" "app.home.lab" "10.0.0.1").1 = Except.ok true ∧
     (EnsureARecord dnsDisabled "home.lab" "app.home.lab" "10.0.0.1" 300).1 = Except.ok false ∧
     (EnsureARecord dnsDisabled "home.lab" "app.home.lab" "10.0.0.1" 300).2.1 = dnsDisabled ∧
     (EnsureARecord dnsDisabled "home.lab" "app.home.lab" "10.0.0.1" 300).2.2.countP
        Call.isCreate = 0) :=
  ⟨List.mem_singleton.mpr rfl, rfl,
   hasARecord_ignores_disabled dnsDisabled "home.lab" "app.home.lab" "10.0.0.1" 300 _
     (List.mem_singleton.mpr rfl) rfl rfl rfl rfl⟩

/-- The dry-run frame property of claim C4, for a reconciler `rc`:
`ensureRecord` still counts every filter-passing hostname as created;
no entry point — full reconcile, partial reconcile or delete — issues
a create or delete call; and `DeleteHostnames` still counts every
filter-passing hostname as deleted. -/
def DryRunFrameProp (rc : Reconciler) : Prop :=
  (∀ wn h res d, rc.cfg.MatchesFilters h = true →
      rc.ensureRecord wn h res d =
        (Except.ok (),
         { res with hostnamesFiltered := res.hostnamesFiltered + 1,
                    recordsCreated := res.recordsCreated + 1 }, d, [])) ∧
  (∀ lr d, ((rc.Reconcile lr d).2.2).all (fun c => !c.isMutation) = true) ∧
  (∀ wn hs d, ((rc.ReconcileHostnames wn hs d).2.2).all (fun c => !c.isMutation) = true) ∧
  (∀ wn hs d, (rc.DeleteHostnames wn hs d).1
      = Except.ok (hs.countP (fun h => rc.cfg.MatchesFilters h)) ∧
      ((rc.DeleteHostnames wn hs d).2.2).all (fun c => !c.isMutation) = true)

/-- Claim C4: with dry-run enabled, no entry point of the reconciler
issues any create or delete call against the DNS gateway, yet
`ensureRecord` still increments `RecordsCreated` for every hostname
passing the filter and `DeleteHostnames` still counts every
filter-passing hostname as deleted. -/
theorem dryRun_frame (rc : Reconciler) (hdry : rc.cfg.dryRun = true) :
    DryRunFrameProp rc := by
  refine ⟨?_, ?_, ?_, ?_⟩
  · intro wn h res d hf
    rw [ensureRecord_dryRun_eq rc wn h res d hdry]
    simp [hf]
  · intro lr d
    cases lr with
    | error e => simp [Reconciler.Reconcile]
    | ok ws =>
      have h2 := (reconcileLoop_dryRun rc ws
        { emptyResult with workloadsScanned := ws.length } d hdry).2
      simp [Reconciler.Reconcile, h2]
  · intro wn hs d
    have h2 := (reconcileHostnamesLoop_dryRun rc wn hs
      { emptyResult with hostnamesFound := hs.length } d hdry).2
    simp [Reconciler.ReconcileHostnames, h2]
  · intro wn hs d
    simp [Reconciler.DeleteHostnames, deleteLoop_dryRun rc wn hs 0 d hdry]

/-- A dry-run configuration with no filter patterns set. -/
def cfgDry : Config :=
  { technitiumZone := "home.lab", targetIP := "10.0.0.1", ttl := 300,
    includePattern := none, excludePattern := none, dryRun := true }

/-- A dry-run reconciler whose parser reads every label value as a
hostname. -/
def rcDry : Reconciler := { cfg := cfgDry, parser := fun ls => ls.map Prod.snd }

/-- Witness for claim C4 on a concrete dry-run reconciler. -/
theorem dryRun_frame_witness :
    rcDry.cfg.dryRun = true ∧ DryRunFrameProp rcDry :=
  ⟨rfl, dryRun_frame rcDry rfl⟩

/-- Claim C10: in dry-run mode `DeleteHostnames` performs no existence
check and no network call at all, and counts every filter-passing
input entry — duplicates included — as deleted, so the returned count
is the number of filter-passing entries of the input list, independent
of which records exist. -/
theorem deleteHostnames_dryRun_counts (rc : Reconciler) (wn : String)
    (hs : List String) (d : DNS) (hdry : rc.cfg.dryRun = true) :
    rc.DeleteHostnames wn hs d
      = (Except.ok (hs.countP fun h => rc.cfg.MatchesFilters h), d, []) := by
  simp [Reconciler.DeleteHostnames, deleteLoop_dryRun rc wn hs 0 d hdry]

/-- Witness for claim C10: a duplicated hostname against an empty zone
reports two deletions while zero records exist. -/
theorem deleteHostnames_dryRun_counts_witness :
    rcDry.cfg.dryRun = true ∧
    rcDry.DeleteHostnames "web" ["a.home.lab", "a.home.lab"] dnsEmpty
      = (Except.ok 2, dnsEmpty, []) ∧
    dnsEmpty.records.length = 0 :=
  ⟨rfl,
   (deleteHostnames_dryRun_counts rcDry "web" ["a.home.lab", "a.home.lab"]
      dnsEmpty rfl).trans (by rfl),
   rfl⟩

/-- Claim C3: a listing failure is returned immediately — no result
object, no partial counters, no network call; a successful listing
always yields a result with a nil top-level error whose counters are
exactly the accumulation of the per-workload loop over every workload;
and a workload whose processing fails contributes one formatted entry
to the error list while the loop continues over the remaining
workloads from the partial state. -/
theorem reconcile_error_policy (rc : Reconciler) (d : DNS) :
    (∀ e, rc.Reconcile (Except.error e) d
        = (Except.error ("listing workloads: " ++ e), d, [])) ∧
    (∀ ws, rc.Reconcile (Except.ok ws) d
        = (Except.ok (reconcileLoop rc ws
            { emptyResult with workloadsScanned := ws.length } d).1,
           (reconcileLoop rc ws
            { emptyResult with workloadsScanned := ws.length } d).2.1,
           (reconcileLoop rc ws
            { emptyResult with workloadsScanned := ws.length } d).2.2)) ∧
    (∀ w ws res e r1 d1 t1,
       rc.processWorkload w res d = (Except.error e, r1, d1, t1) →
       reconcileLoop rc (w :: ws) res d
         = ((reconcileLoop rc ws
              { r1 with errors := r1.errors
                  ++ ["workload " ++ w.name ++ ": " ++ e] } d1).1,
            (reconcileLoop rc ws
              { r1 with errors := r1.errors
                  ++ ["workload " ++ w.name ++ ": " ++ e] } d1).2.1,
            t1 ++ (reconcileLoop rc ws
              { r1 with errors := r1.errors
                  ++ ["workload " ++ w.name ++ ": " ++ e] } d1).2.2)) := by
  refine ⟨fun e => rfl, fun ws => rfl, ?_⟩
  intro w ws res e r1 d1 t1 hpw
  rw [reconcileLoop, hpw]

/-- A live (non-dry-run) configuration with no filter patterns set. -/
def cfgLive : Config :=
  { technitiumZone := "home.lab", targetIP := "10.0.0.1", ttl := 300,
    includePattern := none, excludePattern := none, dryRun := false }

/-- A live reconciler whose parser reads every label value as a
hostname. -/
def rcLive : Reconciler := { cfg := cfgLive, parser := fun ls => ls.map Prod.snd }

/-- A server where fetching records of `h1` in `home.lab` fails. -/
def dnsGetFail : DNS :=
  { records := [], failGet := [("home.lab", "h1")], failAdd := [], failDelete := [] }

/-- A workload exposing hostname `h1`, whose ensure will fail. -/
def wFail : Workload :=
  { id := "1", name := "w1",
    labels := [("traefik.http.routers.r.rule", "h1")], type := "service" }

/-- A workload exposing hostname `h2`, whose ensure succeeds. -/
def wOk : Workload :=
  { id := "2", name := "w2",
    labels := [("traefik.http.routers.r.rule", "h2")], type := "service" }

/-- Witness for claim C3: with `w1` failing (record fetch for `h1`
errors) and `w2` after it, the full pass still processes `w2` — its
record is created — and returns a result carrying exactly the one
formatted error for `w1`. -/
theorem reconcile_error_policy_witness :
    rcLive.processWorkload wFail emptyResult dnsGetFail
      = (Except.error "ensuring record for h1: creating A record: getting records for h1",
         { workloadsScanned := 0, hostnamesFound := 1, hostnamesFiltered := 1,
           recordsCreated := 0, recordsExisted := 0, errors := [] },
         dnsGetFail, [Call.getRecords "home.lab" "h1"]) ∧
    (reconcileLoop rcLive [wFail, wOk] emptyResult dnsGetFail).1
      = { workloadsScanned := 0, hostnamesFound := 2, hostnamesFiltered := 2,
          recordsCreated := 1, recordsExisted := 0,
          errors := ["workload w1: ensuring record for h1: creating A record: getting records for h1"] } ∧
    rcLive.Reconcile (Except.error "docker down") dnsGetFail
      = (Except.error "listing workloads: docker down", dnsGetFail, []) := by
  refine ⟨rfl, ?_, (reconcile_error_policy rcLive dnsGetFail).1 "docker down"⟩
  have h := (reconcile_error_policy rcLive dnsGetFail).2.2 wFail [wOk] emptyResult
    "ensuring record for h1: creating A record: getting records for h1"
    { workloadsScanned := 0, hostnamesFound := 1, hostnamesFiltered := 1,
      recordsCreated := 0, recordsExisted := 0, errors := [] }
    dnsGetFail [Call.getRecords "home.lab" "h1"] rfl
  rw [h]
  rfl

/-- The `DeleteHostnames` behaviour of claim C7, for a reconciler
`rc` (non-dry-run cases spelled per loop step): the operation never
returns a top-level error, only filter-passing hostnames are
considered, existence is checked (one get call) before any delete,
hostnames without a matching record are skipped with no delete call,
and a failing existence check or a failing delete skips just that
hostname while the loop continues; a successful delete increments the
count. -/
def DeleteSemanticsProp (rc : Reconciler) : Prop :=
  (∀ wn hs d, rc.DeleteHostnames wn hs d
      = (Except.ok (deleteLoop rc wn hs 0 d).1, (deleteLoop rc wn hs 0 d).2.1,
         (deleteLoop rc wn hs 0 d).2.2)) ∧
  (∀ wn h rest n d, rc.cfg.MatchesFilters h = false →
      deleteLoop rc wn (h :: rest) n d = deleteLoop rc wn rest n d) ∧
  (∀ wn h rest n d, rc.cfg.MatchesFilters h = true → rc.cfg.dryRun = false →
      d.failGet.contains (rc.cfg.technitiumZone, h) = true →
      deleteLoop rc wn (h :: rest) n d
        = ((deleteLoop rc wn rest n d).1, (deleteLoop rc wn rest n d).2.1,
           Call.getRecords rc.cfg.technitiumZone h :: (deleteLoop rc wn rest n d).2.2)) ∧
  (∀ wn h rest n d, rc.cfg.MatchesFilters h = true → rc.cfg.dryRun = false →
      d.failGet.contains (rc.cfg.technitiumZone, h) = false →
      (d.recordsFor rc.cfg.technitiumZone h).any (recordMatchesA rc.cfg.targetIP) = false →
      deleteLoop rc wn (h :: rest) n d
        = ((deleteLoop rc wn rest n d).1, (deleteLoop rc wn rest n d).2.1,
           Call.getRecords rc.cfg.technitiumZone h :: (deleteLoop rc wn rest n d).2.2)) ∧
  (∀ wn h rest n d, rc.cfg.MatchesFilters h = true → rc.cfg.dryRun = false →
      d.failGet.contains (rc.cfg.technitiumZone, h) = false →
      (d.recordsFor rc.cfg.technitiumZone h).any (recordMatchesA rc.cfg.targetIP) = true →
      d.failDelete.contains (rc.cfg.technitiumZone, h) = true →
      deleteLoop rc wn (h :: rest) n d
        = ((deleteLoop rc wn rest n d).1, (deleteLoop rc wn rest n d).2.1,
           Call.getRecords rc.cfg.technitiumZone h
             :: Call.deleteRecord rc.cfg.technitiumZone h rc.cfg.targetIP
             :: (deleteLoop rc wn rest n d).2.2)) ∧
  (∀ wn h rest n d, rc.cfg.MatchesFilters h = true → rc.cfg.dryRun = false →
      d.failGet.contains (rc.cfg.technitiumZone, h) = false →
      (d.recordsFor rc.cfg.technitiumZone h).any (recordMatchesA rc.cfg.targetIP) = true →
      d.failDelete.contains (rc.cfg.technitiumZone, h) = false →
      deleteLoop rc wn (h :: rest) n d
        = ((deleteLoop rc wn rest (n + 1)
              (DeleteARecord d rc.cfg.technitiumZone h rc.cfg.targetIP).2.1).1,
           (deleteLoop rc wn rest (n + 1)
              (DeleteARecord d rc.cfg.technitiumZone h rc.cfg.targetIP).2.1).2.1,
           Call.getRecords rc.cfg.technitiumZone h
             :: Call.deleteRecord rc.cfg.technitiumZone h rc.cfg.targetIP
             :: (deleteLoop rc wn rest (n + 1)
                  (DeleteARecord d rc.cfg.technitiumZone h rc.cfg.targetIP).2.1).2.2))

/-- Claim C7: `DeleteHostnames` considers only filter-passing
hostnames, checks existence of the exact (zone, hostname, target) A
record before issuing any delete, skips hostnames with no matching
record without a delete call, logs-and-skips per-hostname failures of
either the existence check or the delete without aborting the loop,
and always returns the performed-deletion count with a nil top-level
error. -/
theorem deleteHostnames_semantics (rc : Reconciler) : DeleteSemanticsProp rc := by
  refine ⟨fun wn hs d => rfl, ?_, ?_, ?_, ?_, ?_⟩
  · intro wn h rest n d hf
    rw [deleteLoop]
    simp [hf]
  · intro wn h rest n d hf hdry hget
    have hget' : (rc.cfg.technitiumZone, h) ∈ d.failGet := by simpa using hget
    rw [deleteLoop]
    simp [hf, hdry, HasARecord, GetRecords, hget']
  · intro wn h rest n d hf hdry hget hany
    have hget' : (rc.cfg.technitiumZone, h) ∉ d.failGet := by simpa using hget
    rw [deleteLoop]
    simp [hf, hdry, HasARecord, GetRecords, hget', hany]
  · intro wn h rest n d hf hdry hget hany hdel
    have hget' : (rc.cfg.technitiumZone, h) ∉ d.failGet := by simpa using hget
    have hdel' : (rc.cfg.technitiumZone, h) ∈ d.failDelete := by simpa using hdel
    rw [deleteLoop]
    simp [hf, hdry, HasARecord, GetRecords, DeleteARecord, hget', hany, hdel']
  · intro wn h rest n d hf hdry hget hany hdel
    have hget' : (rc.cfg.technitiumZone, h) ∉ d.failGet := by simpa using hget
    have hdel' : (rc.cfg.technitiumZone, h) ∉ d.failDelete := by simpa using hdel
    rw [deleteLoop]
    simp [hf, hdry, HasARecord, GetRecords, DeleteARecord, hget', hany, hdel']

/-- A server holding A records for `del.home.lab` and
`delerr.home.lab`, with the existence check failing for
`geterr.home.lab` and the delete failing for `delerr.home.lab`. -/
def dnsDel : DNS :=
  { records := [("home.lab", "del.home.lab", storedARecord "del.home.lab" "10.0.0.1" 300),
                ("home.lab", "delerr.home.lab", storedARecord "delerr.home.lab" "10.0.0.1" 300)],
    failGet := [("home.lab", "geterr.home.lab")],
    failAdd := [], failDelete := [("home.lab", "delerr.home.lab")] }

/-- Witness for claim C7: a concrete successful delete step (existence
checked first, then one delete, count incremented), and a four-hostname
run in which a failed check, a missing record and a failed delete are
each skipped while the loop still deletes the last hostname and
reports a nil top-level error with count 1. -/
theorem deleteHostnames_semantics_witness :
    rcLive.cfg.MatchesFilters "del.home.lab" = true ∧
    rcLive.cfg.dryRun = false ∧
    dnsDel.failGet.contains (rcLive.cfg.technitiumZone, "del.home.lab") = false ∧
    (dnsDel.recordsFor rcLive.cfg.technitiumZone "del.home.lab").any
      (recordMatchesA rcLive.cfg.targetIP) = true ∧
    dnsDel.failDelete.contains (rcLive.cfg.technitiumZone, "del.home.lab") = false ∧
    deleteLoop rcLive "w" ["del.home.lab"] 0 dnsDel
      = (1, (DeleteARecord dnsDel "home.lab" "del.home.lab" "10.0.0.1").2.1,
         [Call.getRecords "home.lab" "del.home.lab",
          Call.deleteRecord "home.lab" "del.home.lab" "10.0.0.1"]) ∧
    (rcLive.DeleteHostnames "w"
        ["geterr.home.lab", "ghost.home.lab", "delerr.home.lab", "del.home.lab"]
        dnsDel).1 = Except.ok 1 := by
  refine ⟨rfl, rfl, rfl, rfl, rfl, ?_, ?_⟩
  · have h := (deleteHostnames_semantics rcLive).2.2.2.2.2 "w" "del.home.lab" [] 0 dnsDel
      rfl rfl rfl rfl rfl
    rw [h]
    rfl
  · rw [(deleteHostnames_semantics rcLive).1 "w"
      ["geterr.home.lab", "ghost.home.lab", "delerr.home.lab", "del.home.lab"] dnsDel]
    rfl

/-- The service-event handler issues no DNS call. -/
theorem handleServiceEvent_calls (e : Event) : (handleServiceEvent e).2 = [] := by
  unfold handleServiceEvent
  split <;> rfl

/-- The container-event handler issues no DNS call. -/
theorem handleContainerEvent_calls (e : Event) : (handleContainerEvent e).2 = [] := by
  unfold handleContainerEvent
  split <;> rfl

/-- Event handling issues no DNS call for any event. -/
theorem handleEvent_calls (e : Event) : (handleEvent e).2 = [] := by
  unfold handleEvent
  split <;> simp [handleServiceEvent_calls, handleContainerEvent_calls]

/-- While a reconciliation is pending, lifecycle events leave the
watcher state and the server untouched: the run over a lifecycle
prefix continues exactly as the run over the remaining inputs. -/
theorem watchRun_lifecycle_pending (rc : Reconciler) (events : List Event)
    (l : List WInput) (s : WatchState) (d : DNS) (hp : s.pending = true) :
    (watchRun rc s d (events.map WInput.lifecycle ++ l)).1 = (watchRun rc s d l).1 ∧
    (watchRun rc s d (events.map WInput.lifecycle ++ l)).2.1 = (watchRun rc s d l).2.1 := by
  induction events with
  | nil => simp
  | cons e rest ih =>
    simp only [List.map_cons, List.cons_append]
    rw [watchRun]
    simpa [watchStep, hp] using ih

/-- Claim C5: starting idle, any batch of `N ≥ 1` lifecycle events
followed by the firing of the debounce timer triggers exactly one
`Reconcile` call and arms the timer exactly once; events arriving
while a reconciliation is pending cause no scheduling action at all
(the state, and in particular the armed-timer flag, is unchanged); and
after the timer fires the watcher is idle again whatever the
reconciliation outcome `lr` was. -/
theorem watcher_coalescing (rc : Reconciler) (events : List Event)
    (lr : Except String (List Workload)) (s : WatchState) (d : DNS)
    (hN : 1 ≤ events.length) (hidle : s.pending = false) :
    ((watchRun rc s d
        (events.map WInput.lifecycle ++ [WInput.timerFire lr])).1.reconcileCount
      = s.reconcileCount + 1) ∧
    ((watchRun rc s d
        (events.map WInput.lifecycle ++ [WInput.timerFire lr])).1.timerArms
      = s.timerArms + 1) ∧
    ((watchRun rc s d
        (events.map WInput.lifecycle ++ [WInput.timerFire lr])).1.pending = false) ∧
    (∀ s2 d2 e, s2.pending = true →
       watchStep rc s2 d2 (WInput.lifecycle e) = (s2, d2, (handleEvent e).2)) := by
  obtain ⟨e, rest, rfl⟩ : ∃ e rest, events = e :: rest := by
    cases events with
    | nil => simp at hN
    | cons e rest => exact ⟨e, rest, rfl⟩
  have hstep : watchStep rc s d (WInput.lifecycle e)
      = ({ s with pending := true, timerArms := s.timerArms + 1 }, d, (handleEvent e).2) := by
    simp [watchStep, hidle]
  have hrest := watchRun_lifecycle_pending rc rest [WInput.timerFire lr]
    ({ s with pending := true, timerArms := s.timerArms + 1 }) d rfl
  refine ⟨?_, ?_, ?_, fun s2 d2 e2 hp => by simp [watchStep, hp]⟩ <;>
    · simp only [List.map_cons, List.cons_append]
      rw [watchRun, hstep]
      simp only [hrest.1, hrest.2]
      rw [watchRun]
      simp [watchStep, watchRun]

/-- Witness for claim C5: three concrete service events from the idle
state followed by the timer firing yield exactly one reconciliation
and one timer arming. -/
theorem watcher_coalescing_witness :
    1 ≤ ([⟨"service", "create", "a"⟩, ⟨"service", "update", "a"⟩,
          ⟨"service", "remove", "a"⟩] : List Event).length ∧
    (⟨false, 0, 0⟩ : WatchState).pending = false ∧
    ((watchRun rcLive ⟨false, 0, 0⟩ dnsEmpty
        (([⟨"service", "create", "a"⟩, ⟨"service", "update", "a"⟩,
           ⟨"service", "remove", "a"⟩] : List Event).map WInput.lifecycle
          ++ [WInput.timerFire (Except.ok [])])).1.reconcileCount
       = (⟨false, 0, 0⟩ : WatchState).reconcileCount + 1) ∧
    ((watchRun rcLive ⟨false, 0, 0⟩ dnsEmpty
        (([⟨"service", "create", "a"⟩, ⟨"service", "update", "a"⟩,
           ⟨"service", "remove", "a"⟩] : List Event).map WInput.lifecycle
          ++ [WInput.timerFire (Except.ok [])])).1.timerArms
       = (⟨false, 0, 0⟩ : WatchState).timerArms + 1) ∧
    ((watchRun rcLive ⟨false, 0, 0⟩ dnsEmpty
        (([⟨"service", "create", "a"⟩, ⟨"service", "update", "a"⟩,
           ⟨"service", "remove", "a"⟩] : List Event).map WInput.lifecycle
          ++ [WInput.timerFire (Except.ok [])])).1.pending = false) := by
  have h := watcher_coalescing rcLive
    [⟨"service", "create", "a"⟩, ⟨"service", "update", "a"⟩, ⟨"service", "remove", "a"⟩]
    (Except.ok []) ⟨false, 0, 0⟩ dnsEmpty (by decide) rfl
  exact ⟨by decide, rfl, h.1, h.2.1, h.2.2.1⟩

/-- `EnsureARecord` never issues a delete call. -/
theorem ensureARecord_noDelete (d : DNS) (zone host ip : String) (ttl : Nat) :
    ((EnsureARecord d zone host ip ttl).2.2).all (fun c => !c.isDelete) = true := by
  by_cases hg : (zone, host) ∈ d.failGet <;>
    by_cases ha : (zone, host) ∈ d.failAdd <;>
      cases hm : (d.recordsFor zone host).any (recordMatchesA ip) <;>
        simp [EnsureARecord, HasARecord, GetRecords, AddARecord, hg, ha, hm,
          Call.isDelete]

/-- `ensureRecord` never issues a delete call. -/
theorem ensureRecord_noDelete (rc : Reconciler) (wn h : String)
    (res : ReconcileResult) (d : DNS) :
    ((rc.ensureRecord wn h res d).2.2.2).all (fun c => !c.isDelete) = true := by
  have hE := ensureARecord_noDelete d rc.cfg.technitiumZone h rc.cfg.targetIP rc.cfg.ttl
  unfold Reconciler.ensureRecord
  cases hf : rc.cfg.MatchesFilters h with
  | false => simp [hf]
  | true =>
    cases hd : rc.cfg.dryRun with
    | true => simp [hf, hd]
    | false =>
      rcases hEe : EnsureARecord d rc.cfg.technitiumZone h rc.cfg.targetIP rc.cfg.ttl
        with ⟨er, d1, t1⟩
      rw [hEe] at hE
      cases er with
      | error e => simpa [hf, hd, hEe] using hE
      | ok created => cases created <;> simpa [hf, hd, hEe] using hE

/-- The per-workload ensure loop never issues a delete call. -/
theorem ensureHostsLoop_noDelete (rc : Reconciler) (wn : String) (hosts : List String)
    (res : ReconcileResult) (d : DNS) :
    ((ensureHostsLoop rc wn hosts res d).2.2.2).all (fun c => !c.isDelete) = true := by
  induction hosts generalizing res d with
  | nil => simp [ensureHostsLoop]
  | cons h rest ih =>
    have hE := ensureRecord_noDelete rc wn h res d
    rw [ensureHostsLoop]
    rcases he : rc.ensureRecord wn h res d with ⟨er, r1, d1, t1⟩
    rw [he] at hE
    cases er with
    | error e => simpa using hE
    | ok u =>
      simp_all [List.all_append]
      exact ih _ _

/-- `processWorkload` never issues a delete call. -/
theorem processWorkload_noDelete (rc : Reconciler) (w : Workload)
    (res : ReconcileResult) (d : DNS) :
    ((rc.processWorkload w res d).2.2.2).all (fun c => !c.isDelete) = true := by
  unfold Reconciler.processWorkload
  cases hz : ((rc.parser w.labels).length == 0) <;>
    simp [hz, ensureHostsLoop_noDelete]

/-- The full-pass workload loop never issues a delete call. -/
theorem reconcileLoop_noDelete (rc : Reconciler) (ws : List Workload)
    (res : ReconcileResult) (d : DNS) :
    ((reconcileLoop rc ws res d).2.2).all (fun c => !c.isDelete) = true := by
  induction ws generalizing res d with
  | nil => simp [reconcileLoop]
  | cons w rest ih =>
    have hP := processWorkload_noDelete rc w res d
    rw [reconcileLoop]
    rcases hp : rc.processWorkload w res d with ⟨er, r1, d1, t1⟩
    rw [hp] at hP
    cases er with
    | error e =>
      simp_all [List.all_append]
      exact ih _ _
    | ok u =>
      simp_all [List.all_append]
      exact ih _ _

/-- A full `Reconcile` pass never issues a delete call. -/
theorem reconcile_noDelete (rc : Reconciler) (lr : Except String (List Workload))
    (d : DNS) :
    ((rc.Reconcile lr d).2.2).all (fun c => !c.isDelete) = true := by
  cases lr with
  | error e => simp [Reconciler.Reconcile]
  | ok ws => simp [Reconciler.Reconcile, reconcileLoop_noDelete]

/-- A watcher step never issues a delete call. -/
theorem watchStep_noDelete (rc : Reconciler) (s : WatchState) (d : DNS) (i : WInput) :
    ((watchStep rc s d i).2.2).all (fun c => !c.isDelete) = true := by
  cases i with
  | lifecycle e =>
    cases hp : s.pending <;> simp [watchStep, hp, handleEvent_calls]
  | timerFire lr => simp [watchStep, reconcile_noDelete]

/-- Claim C6: removal and stop lifecycle events never lead to a DNS
delete: the service and container event handlers issue no DNS call at
all, the debounced full reconciliation a lifecycle event can trigger
issues no delete call, and consequently no watcher execution over any
input sequence — lifecycle events and timer firings in any order —
ever issues a delete against the DNS gateway. -/
theorem lifecycle_no_delete (rc : Reconciler) (e : Event)
    (lr : Except String (List Workload)) (s : WatchState) (d : DNS)
    (inputs : List WInput) :
    (handleServiceEvent e).2 = [] ∧
    (handleContainerEvent e).2 = [] ∧
    ((rc.Reconcile lr d).2.2).all (fun c => !c.isDelete) = true ∧
    ((watchRun rc s d inputs).2.2).all (fun c => !c.isDelete) = true := by
  refine ⟨handleServiceEvent_calls e, handleContainerEvent_calls e,
    reconcile_noDelete rc lr d, ?_⟩
  induction inputs generalizing s d with
  | nil => simp [watchRun]
  | cons i rest ih =>
    have hS := watchStep_noDelete rc s d i
    rw [watchRun]
    rcases hs : watchStep rc s d i with ⟨s1, d1, t1⟩
    rw [hs] at hS
    simp_all [List.all_append]
    exact ih _ _

end TechComp
